import Mathlib

/-!
Shallow embedding of a library-management backend (src/main.py, src/schemas.py).

The backend stores three MongoDB collections: `book`, `member`, `loan`.
We model a collection as an association list `List (Nat × doc)` keyed by the
document identity (`_id`), the whole store as a `DB` structure, and each HTTP
handler of main.py as a pure function `DB → args → Except HTTPException result × DB`
returning the outcome together with the post-state.  Mongo semantics used by the
code are embedded faithfully:
  - `find_one {_id: i}` is first-match lookup (`findDoc`);
  - `update_one {_id: i} {$set / $inc}` rewrites the first matching document and
    is a no-op when nothing matches (`updateDoc`);
  - `$inc` on a missing field treats it as 0 (the code also reads the field via
    `book.get("available_copies", 0)`), so `available_copies` is an `Option Int`;
  - `delete_one` removes the first match (`deleteDoc`).
Time is modelled as an abstract instant `now : Nat`; `datetime.utcnow()` calls
inside one handler are the same instant, and `due.date()` is identity at this
granularity.  Identities are `Nat`.
-/

/-- Book document: schemas.Book plus the stored stamps.  `available_copies`
is optional because the handlers read it with `book.get("available_copies", 0)`
and raw documents may lack it. -/
structure Book where
  title : String
  author : String
  isbn : Option String := none
  category : Option String := none
  total_copies : Int := 1
  available_copies : Option Int := some 1
  tags : Option (List String) := none
  created_at : Nat := 0
  updated_at : Option Nat := none
deriving Repr, DecidableEq

/-- Member document: schemas.Member plus stamps. -/
structure Member where
  name : String
  email : String
  phone : Option String := none
  is_active : Bool := true
  created_at : Nat := 0
  updated_at : Option Nat := none
deriving Repr, DecidableEq

/-- Loan document: schemas.Loan plus stamps.  `book_id` is optional because
return_book reads it with `loan.get("book_id")` and guards `if book_id:`. -/
structure Loan where
  member_id : Nat
  book_id : Option Nat := none
  due_date : Option Nat := none
  returned : Bool := false
  created_at : Nat := 0
  updated_at : Option Nat := none
deriving Repr, DecidableEq

/-- The document store: the three collections plus the id generator state. -/
structure DB where
  books : List (Nat × Book)
  members : List (Nat × Member)
  loans : List (Nat × Loan)
  nextId : Nat
deriving Repr, DecidableEq

/-- fastapi.HTTPException as raised by the handlers. -/
structure HTTPException where
  status_code : Nat
  detail : String
deriving Repr, DecidableEq

/-- Mongo `find_one {_id: i}`: the first document with the given id. -/
def findDoc {α : Type} (coll : List (Nat × α)) (i : Nat) : Option α :=
  (coll.find? (fun p => p.1 == i)).map (fun p => p.2)

/-- Mongo `update_one {_id: i}`: rewrite the first matching document, no-op
when nothing matches. -/
def updateDoc {α : Type} : List (Nat × α) → Nat → (α → α) → List (Nat × α)
  | [], _, _ => []
  | p :: ps, i, f => if p.1 == i then (p.1, f p.2) :: ps else p :: updateDoc ps i f

/-- Mongo `delete_one {_id: i}`: remove the first matching document. -/
def deleteDoc {α : Type} : List (Nat × α) → Nat → List (Nat × α)
  | [], _ => []
  | p :: ps, i => if p.1 == i then ps else p :: deleteDoc ps i

/-- Modelled from the spec: `create_document("loan", doc)` from the repository's
`database` module, which is not under src/.  It inserts the document into the
collection, generating a fresh identity and stamping the record's creation time
(the spec sorts loans "by creation time, descending", so stored records carry
their creation instant). -/
def create_document_loan (db : DB) (now : Nat) (doc : Loan) : Nat × DB :=
  (db.nextId,
   { db with loans := db.loans ++ [(db.nextId, { doc with created_at := now })],
             nextId := db.nextId + 1 })

/-- Modelled from the spec: `create_document("member", doc)` from the missing
`database` module, same contract as the loan version. -/
def create_document_member (db : DB) (now : Nat) (doc : Member) : Nat × DB :=
  (db.nextId,
   { db with members := db.members ++ [(db.nextId, { doc with created_at := now })],
             nextId := db.nextId + 1 })

/-- BorrowRequest.days defaults to 14 (src/main.py, class BorrowRequest). -/
def BorrowRequest.days_default : Int := 14

/-- POST /loans/borrow (src/main.py, borrow_book).  On success the handler
re-fetches the created loan and returns it serialized with its generated id;
`serialize(None)` would be `None`, hence the `Option` in the ok payload. -/
def borrow_book (db : DB) (now : Nat) (member_id book_id : Nat) (days : Int) :
    Except HTTPException (Nat × Option Loan) × DB :=
  match findDoc db.books book_id with
  | none => (.error ⟨404, "Book not found"⟩, db)
  | some book =>
    if book.available_copies.getD 0 ≤ 0 then
      (.error ⟨400, "No copies available"⟩, db)
    else
      match findDoc db.members member_id with
      | none => (.error ⟨404, "Member not found"⟩, db)
      | some _ =>
        let due := now + (max 1 days).toNat
        let loan_doc : Loan :=
          { member_id := member_id, book_id := some book_id,
            due_date := some due, returned := false }
        let ins := create_document_loan db now loan_doc
        let dec : Book → Book := fun b =>
          { b with available_copies := some (b.available_copies.getD 0 - 1),
                   updated_at := some now }
        let db2 : DB := { ins.2 with books := updateDoc ins.2.books book_id dec }
        (.ok (ins.1, findDoc db2.loans ins.1), db2)

/-- POST /loans/return (src/main.py, return_book).  Idempotent branch returns
the stored loan unchanged; otherwise the loan is marked returned, the
referenced book (when its id is present and matches a document) is
incremented, and the re-fetched loan is returned. -/
def return_book (db : DB) (now : Nat) (loan_id : Nat) :
    Except HTTPException (Option (Nat × Loan)) × DB :=
  match findDoc db.loans loan_id with
  | none => (.error ⟨404, "Loan not found"⟩, db)
  | some loan =>
    if loan.returned then (.ok (some (loan_id, loan)), db)
    else
      let mark : Loan → Loan := fun l =>
        { l with returned := true, updated_at := some now }
      let inc : Book → Book := fun b =>
        { b with available_copies := some (b.available_copies.getD 0 + 1),
                 updated_at := some now }
      let db1 : DB := { db with loans := updateDoc db.loans loan_id mark }
      let db2 : DB :=
        match loan.book_id with
        | none => db1
        | some bid => { db1 with books := updateDoc db1.books bid inc }
      (.ok ((findDoc db2.loans loan_id).map (fun l => (loan_id, l))), db2)

/-- The guard of DELETE /books/{book_id}: some loan references the book with
`returned == False`.  This is the condition the spec names `canDeleteBook`
(negated). -/
def hasActiveLoan (db : DB) (book_id : Nat) : Bool :=
  db.loans.any (fun p => p.2.book_id == some book_id && p.2.returned == false)

/-- Modelled from the spec: `canDeleteBook(bookId) -> bool` of spec section 6,
"false if active loans reference it".  In src it exists only as the inline
guard of delete_book, embedded as `hasActiveLoan`. -/
def canDeleteBook (db : DB) (book_id : Nat) : Bool :=
  !(hasActiveLoan db book_id)

/-- DELETE /books/{book_id} (src/main.py, delete_book).  The delete itself is
attempted before the 404 check, but `delete_one` with no match leaves the
store unchanged. -/
def delete_book (db : DB) (book_id : Nat) : Except HTTPException Nat × DB :=
  if hasActiveLoan db book_id then
    (.error ⟨400, "Cannot delete book with active loans"⟩, db)
  else
    let db1 : DB := { db with books := deleteDoc db.books book_id }
    if (findDoc db.books book_id).isSome then (.ok book_id, db1)
    else (.error ⟨404, "Book not found"⟩, db1)

/-- POST /members (src/main.py, create_member).  A member with the same email
short-circuits: the stored document is returned and nothing is written. -/
def create_member (db : DB) (now : Nat) (name email : String) (phone : Option String) :
    Option (Nat × Member) × DB :=
  match db.members.find? (fun p => p.2.email == email) with
  | some p => (some p, db)
  | none =>
    let doc : Member := { name := name, email := email, phone := phone }
    let ins := create_document_member db now doc
    ((findDoc ins.2.members ins.1).map (fun m => (ins.1, m)), ins.2)

/-- UpdateBook request model: every field optional (src/main.py, UpdateBook). -/
structure UpdateBook where
  title : Option String := none
  author : Option String := none
  isbn : Option String := none
  category : Option String := none
  total_copies : Option Int := none
  available_copies : Option Int := none
  tags : Option (List String) := none
deriving Repr, DecidableEq

/-- `payload.model_dump(exclude_none=True)` is empty: every field is None. -/
def UpdateBook.isEmpty (p : UpdateBook) : Bool :=
  p.title == none && p.author == none && p.isbn == none && p.category == none &&
  p.total_copies == none && p.available_copies == none && p.tags == none

/-- The `$set` document of update_book applied to a stored book: each field
present in the payload overwrites, plus the `updated_at` stamp. -/
def applyUpdate (p : UpdateBook) (now : Nat) (b : Book) : Book :=
  { b with
    title := p.title.getD b.title,
    author := p.author.getD b.author,
    isbn := if p.isbn.isSome then p.isbn else b.isbn,
    category := if p.category.isSome then p.category else b.category,
    total_copies := p.total_copies.getD b.total_copies,
    available_copies := if p.available_copies.isSome then p.available_copies
                        else b.available_copies,
    tags := if p.tags.isSome then p.tags else b.tags,
    updated_at := some now }

/-- GET /books/{book_id} (src/main.py, get_book). -/
def get_book (db : DB) (book_id : Nat) : Except HTTPException (Nat × Book) :=
  match findDoc db.books book_id with
  | none => .error ⟨404, "Book not found"⟩
  | some b => .ok (book_id, b)

/-- PUT /books/{book_id} (src/main.py, update_book).  An all-None payload
short-circuits to a plain read; otherwise the first matching document is
rewritten (`update_one` is a no-op when nothing matches, and the 404 is
raised from `matched_count == 0` afterwards). -/
def update_book (db : DB) (now : Nat) (book_id : Nat) (p : UpdateBook) :
    Except HTTPException (Nat × Book) × DB :=
  if p.isEmpty then (get_book db book_id, db)
  else
    let db1 : DB := { db with books := updateDoc db.books book_id (applyUpdate p now) }
    if (findDoc db.books book_id).isSome then (get_book db1 book_id, db1)
    else (.error ⟨404, "Book not found"⟩, db1)

/-- One element of the GET /loans/active response: the loan with its id plus
the read-only `{title, author}` and `{name, email}` snapshots. -/
structure EnrichedLoan where
  id : Nat
  loan : Loan
  book : Option (String × String)
  member : Option (String × String)
deriving Repr, DecidableEq

/-- The enrichment step of active_loans: look up the referenced book and
member and attach the snapshots (None when the reference is dangling). -/
def enrichLoan (db : DB) (p : Nat × Loan) : EnrichedLoan :=
  { id := p.1,
    loan := p.2,
    book := (p.2.book_id.bind (findDoc db.books)).map (fun b => (b.title, b.author)),
    member := (findDoc db.members p.2.member_id).map (fun m => (m.name, m.email)) }

/-- Mongo `.sort("created_at", -1)`: descending by creation time. -/
def sortByCreatedDesc (ls : List (Nat × Loan)) : List (Nat × Loan) :=
  ls.mergeSort (fun a b => b.2.created_at ≤ a.2.created_at)

/-- GET /loans/active (src/main.py, active_loans): the loans with
`returned == False`, newest first, each enriched.  The handler only reads,
so the store is not part of the result. -/
def active_loans (db : DB) : List EnrichedLoan :=
  (sortByCreatedDesc (db.loans.filter (fun p => p.2.returned == false))).map (enrichLoan db)

/-- `available_copies` of a book as the handlers read it: missing book or
missing field count as 0. -/
def availOf (db : DB) (book_id : Nat) : Int :=
  match findDoc db.books book_id with
  | some b => b.available_copies.getD 0
  | none => 0

/-! ### Store lemmas -/

theorem findDoc_nil {α : Type} (i : Nat) : findDoc ([] : List (Nat × α)) i = none := rfl

theorem findDoc_cons {α : Type} (k : Nat) (v : α) (ps : List (Nat × α)) (i : Nat) :
    findDoc ((k, v) :: ps) i = if k == i then some v else findDoc ps i := by
  by_cases h : k == i <;> simp [findDoc, List.find?_cons, h]

theorem findDoc_updateDoc_self {α : Type} (coll : List (Nat × α)) (i : Nat) (f : α → α) :
    findDoc (updateDoc coll i f) i = (findDoc coll i).map f := by
  induction coll with
  | nil => rfl
  | cons p ps ih =>
    obtain ⟨k, v⟩ := p
    by_cases h : k == i
    · simp [updateDoc, h, findDoc_cons]
    · simp [updateDoc, h, findDoc_cons, ih]

theorem findDoc_updateDoc_ne {α : Type} (coll : List (Nat × α)) (i j : Nat) (f : α → α)
    (h : j ≠ i) : findDoc (updateDoc coll i f) j = findDoc coll j := by
  induction coll with
  | nil => rfl
  | cons p ps ih =>
    obtain ⟨k, v⟩ := p
    by_cases hk : k == i
    · have hki : k = i := by simpa using hk
      have hkj : (k == j) = false := by
        simp only [beq_eq_false_iff_ne]
        omega
      simp [updateDoc, hk, findDoc_cons, hkj]
    · by_cases hkj : k == j <;> simp [updateDoc, hk, findDoc_cons, hkj, ih]

theorem updateDoc_of_none {α : Type} (coll : List (Nat × α)) (i : Nat) (f : α → α)
    (h : findDoc coll i = none) : updateDoc coll i f = coll := by
  induction coll with
  | nil => rfl
  | cons p ps ih =>
    obtain ⟨k, v⟩ := p
    rw [findDoc_cons] at h
    by_cases hk : k == i
    · simp [hk] at h
    · simp [hk] at h
      simp [updateDoc, hk, ih h]

theorem updateDoc_keys {α : Type} (coll : List (Nat × α)) (i : Nat) (f : α → α) :
    (updateDoc coll i f).map Prod.fst = coll.map Prod.fst := by
  induction coll with
  | nil => rfl
  | cons p ps ih =>
    obtain ⟨k, v⟩ := p
    by_cases hk : k == i <;> simp [updateDoc, hk, ih]

theorem findDoc_eq_none {α : Type} (coll : List (Nat × α)) (i : Nat)
    (h : ∀ p ∈ coll, p.1 ≠ i) : findDoc coll i = none := by
  induction coll with
  | nil => rfl
  | cons p ps ih =>
    obtain ⟨k, v⟩ := p
    have hk : (k == i) = false := by
      have := h (k, v) (List.mem_cons_self _ _)
      simp only [beq_eq_false_iff_ne]
      exact this
    rw [findDoc_cons, hk]
    simpa using ih (fun p hp => h p (List.mem_cons_of_mem _ hp))

theorem findDoc_append {α : Type} (l1 l2 : List (Nat × α)) (i : Nat) :
    findDoc (l1 ++ l2) i = (findDoc l1 i).or (findDoc l2 i) := by
  induction l1 with
  | nil => simp [findDoc_nil]
  | cons p ps ih =>
    obtain ⟨k, v⟩ := p
    by_cases hk : k == i
    · rw [List.cons_append, findDoc_cons, findDoc_cons]
      simp [hk]
    · rw [List.cons_append, findDoc_cons, findDoc_cons]
      simp [hk, ih]

theorem findDoc_append_right {α : Type} (l1 l2 : List (Nat × α)) (i : Nat)
    (h : findDoc l1 i = none) : findDoc (l1 ++ l2) i = findDoc l2 i := by
  rw [findDoc_append, h, Option.none_or]

theorem findDoc_append_ne {α : Type} (l1 : List (Nat × α)) (n : Nat) (d : α) (i : Nat)
    (h : i ≠ n) : findDoc (l1 ++ [(n, d)]) i = findDoc l1 i := by
  have hsingle : findDoc [(n, d)] i = none := by
    rw [findDoc_cons, findDoc_nil]
    have : (n == i) = false := by
      simp only [beq_eq_false_iff_ne]
      omega
    simp [this]
  rw [findDoc_append, hsingle]
  cases findDoc l1 i <;> rfl

theorem deleteDoc_of_none {α : Type} (coll : List (Nat × α)) (i : Nat)
    (h : findDoc coll i = none) : deleteDoc coll i = coll := by
  induction coll with
  | nil => rfl
  | cons p ps ih =>
    obtain ⟨k, v⟩ := p
    rw [findDoc_cons] at h
    by_cases hk : k == i
    · simp [hk] at h
    · simp [hk] at h
      simp [deleteDoc, hk, ih h]

theorem findDoc_deleteDoc_ne {α : Type} (coll : List (Nat × α)) (i j : Nat)
    (h : j ≠ i) : findDoc (deleteDoc coll i) j = findDoc coll j := by
  induction coll with
  | nil => rfl
  | cons p ps ih =>
    obtain ⟨k, v⟩ := p
    by_cases hk : k == i
    · have hki : k = i := by simpa using hk
      have hkj : (k == j) = false := by
        simp only [beq_eq_false_iff_ne]
        omega
      simp [deleteDoc, hk, findDoc_cons, hkj]
    · by_cases hkj : k == j <;> simp [deleteDoc, hk, findDoc_cons, hkj, ih]

theorem findDoc_deleteDoc_self {α : Type} (coll : List (Nat × α)) (i : Nat)
    (h : (coll.map Prod.fst).Nodup) : findDoc (deleteDoc coll i) i = none := by
  induction coll with
  | nil => rfl
  | cons p ps ih =>
    obtain ⟨k, v⟩ := p
    simp only [List.map_cons, List.nodup_cons] at h
    by_cases hk : k == i
    · have hki : k = i := by simpa using hk
      have hdel : deleteDoc ((k, v) :: ps) i = ps := by
        show (if k == i then ps else (k, v) :: deleteDoc ps i) = ps
        rw [if_pos hk]
      rw [hdel]
      apply findDoc_eq_none
      intro q hq hqi
      apply h.1
      rw [← hki] at hqi
      rw [← hqi]
      exact List.mem_map_of_mem Prod.fst hq
    · have hdel : deleteDoc ((k, v) :: ps) i = (k, v) :: deleteDoc ps i := by
        show (if k == i then ps else (k, v) :: deleteDoc ps i) = _
        rw [if_neg hk]
      rw [hdel, findDoc_cons, if_neg hk]
      exact ih h.2

/-! ### Example data used by the witnesses -/

def wBookZero : Book :=
  { title := "Zero", author := "Za", total_copies := 5, available_copies := some 0 }

def wBookOk : Book :=
  { title := "Odyssey", author := "Homer", total_copies := 2, available_copies := some 2 }

def wMember : Member := { name := "Alice", email := "alice" }

def wDB : DB :=
  { books := [(1, wBookZero), (2, wBookOk)], members := [(10, wMember)],
    loans := [], nextId := 11 }

def wLoanActive : Loan :=
  { member_id := 10, book_id := some 2, returned := false, created_at := 50 }

def wDBLoan : DB :=
  { books := [(1, wBookZero), (2, wBookOk)], members := [(10, wMember)],
    loans := [(20, wLoanActive)], nextId := 21 }

/-! ### Claims -/

/-- C1: Borrow applies its checks in order — a missing book yields 404
NotFound; an existing book whose available_copies (read with default 0) is not
positive yields 400 "No copies available" whatever its total_copies; a passing
book check with a missing member yields 404 NotFound — and in every failure
case the post-state is exactly the input store: no loan is created and no book
document is modified. -/
theorem C1_borrow_failure_order (db : DB) (now m bid : Nat) (d : Int) :
    (findDoc db.books bid = none →
      borrow_book db now m bid d = (.error ⟨404, "Book not found"⟩, db)) ∧
    (∀ book : Book, findDoc db.books bid = some book →
      book.available_copies.getD 0 ≤ 0 →
      borrow_book db now m bid d = (.error ⟨400, "No copies available"⟩, db)) ∧
    (∀ book : Book, findDoc db.books bid = some book →
      0 < book.available_copies.getD 0 → findDoc db.members m = none →
      borrow_book db now m bid d = (.error ⟨404, "Member not found"⟩, db)) := by
  refine ⟨fun h => ?_, fun book hb hle => ?_, fun book hb hpos hm => ?_⟩
  · simp [borrow_book, h]
  · simp [borrow_book, hb, hle]
  · have hnle : ¬ book.available_copies.getD 0 ≤ 0 := by omega
    simp [borrow_book, hb, hnle, hm]

/-- C1 witness: the three borrow failures at concrete inputs (absent book id
99; book 1 with zero available but five total copies; absent member 55). -/
theorem C1_borrow_failure_order_witness :
    borrow_book wDB 100 10 99 14 = (.error ⟨404, "Book not found"⟩, wDB) ∧
    borrow_book wDB 100 10 1 14 = (.error ⟨400, "No copies available"⟩, wDB) ∧
    borrow_book wDB 100 55 2 14 = (.error ⟨404, "Member not found"⟩, wDB) :=
  ⟨(C1_borrow_failure_order wDB 100 10 99 14).1 (by rfl),
   (C1_borrow_failure_order wDB 100 10 1 14).2.1 wBookZero (by rfl) (by decide),
   (C1_borrow_failure_order wDB 100 55 2 14).2.2 wBookOk (by rfl) (by decide) (by rfl)⟩

/-- C8: creating a member whose email is already stored returns the stored
document and writes nothing — the post-state equals the input store, so the
existing name and phone survive and the supplied name and phone (universally
quantified here) are discarded. -/
theorem C8_create_member_existing (db : DB) (now : Nat) (name email : String)
    (phone : Option String) (mid : Nat) (mem : Member)
    (h : db.members.find? (fun p => p.2.email == email) = some (mid, mem)) :
    create_member db now name email phone = (some (mid, mem), db) := by
  simp [create_member, h]

/-- C8 witness: re-registering the email "alice" with a different name and
phone returns the stored Alice record and leaves the store untouched. -/
theorem C8_create_member_existing_witness :
    create_member wDB 7 "Bob" "alice" (some "555") = (some (10, wMember), wDB) :=
  C8_create_member_existing wDB 7 "Bob" "alice" (some "555") 10 wMember (by rfl)

/-- C10: an update whose payload has every field None short-circuits to a
plain read — the post-state is the input store (no write, updated_at
untouched) and the stored book (or 404 when absent) is returned — while a
non-empty update rewrites the stored book through applyUpdate, which always
stamps updated_at with the current instant. -/
theorem C10_update_book_empty_noop (db : DB) (now bid : Nat) (p : UpdateBook) :
    (p.isEmpty = true →
      update_book db now bid p = (get_book db bid, db) ∧
      (∀ b : Book, findDoc db.books bid = some b → get_book db bid = .ok (bid, b)) ∧
      (findDoc db.books bid = none →
        get_book db bid = .error ⟨404, "Book not found"⟩)) ∧
    (p.isEmpty = false → ∀ b : Book, findDoc db.books bid = some b →
      (update_book db now bid p).1 = .ok (bid, applyUpdate p now b) ∧
      findDoc (update_book db now bid p).2.books bid = some (applyUpdate p now b) ∧
      (applyUpdate p now b).updated_at = some now) := by
  constructor
  · intro hemp
    refine ⟨by simp [update_book, hemp], fun b hb => by simp [get_book, hb],
      fun hnone => by simp [get_book, hnone]⟩
  · intro hne b hb
    have hsome : (findDoc db.books bid).isSome = true := by simp [hb]
    have hupd : findDoc (updateDoc db.books bid (applyUpdate p now)) bid =
        some (applyUpdate p now b) := by
      rw [findDoc_updateDoc_self, hb]
      rfl
    refine ⟨?_, ?_, rfl⟩
    · simp [update_book, hne, hsome, get_book, hupd]
    · simp [update_book, hne, hsome, hupd]

/-- C10 witness: the all-None payload on book 1 returns the stored book with
the store unchanged, and a title-only payload stamps updated_at. -/
theorem C10_update_book_empty_noop_witness :
    update_book wDB 77 1 {} = (.ok (1, wBookZero), wDB) ∧
    (update_book wDB 77 1 { title := some "T" }).1 =
      .ok (1, applyUpdate { title := some "T" } 77 wBookZero) ∧
    (applyUpdate { title := some "T" } 77 wBookZero).updated_at = some 77 := by
  have h1 := (C10_update_book_empty_noop wDB 77 1 {}).1 (by decide)
  have h2 := (C10_update_book_empty_noop wDB 77 1 { title := some "T" }).2
    (by decide) wBookZero (by rfl)
  exact ⟨by rw [h1.1, h1.2.1 wBookZero (by rfl)], h2.1, h2.2.2⟩

/-- C6: the delete guard — canDeleteBook is false exactly when some stored
loan references the book with returned = false; delete_book answers 400
"Cannot delete book with active loans" (leaving the store unchanged) exactly
in that case; otherwise it deletes the stored book (404 when absent), touching
no other collection. -/
theorem C6_delete_book_guard (db : DB) (bid : Nat) :
    (canDeleteBook db bid = false ↔
      ∃ p ∈ db.loans, p.2.book_id = some bid ∧ p.2.returned = false) ∧
    (delete_book db bid = (.error ⟨400, "Cannot delete book with active loans"⟩, db) ↔
      canDeleteBook db bid = false) ∧
    (canDeleteBook db bid = true → (db.books.map Prod.fst).Nodup →
      ∀ b : Book, findDoc db.books bid = some b →
        (delete_book db bid).1 = .ok bid ∧
        findDoc (delete_book db bid).2.books bid = none ∧
        (∀ j, j ≠ bid → findDoc (delete_book db bid).2.books j = findDoc db.books j) ∧
        (delete_book db bid).2.loans = db.loans ∧
        (delete_book db bid).2.members = db.members) ∧
    (canDeleteBook db bid = true → findDoc db.books bid = none →
      delete_book db bid = (.error ⟨404, "Book not found"⟩, db)) := by
  refine ⟨?_, ?_, ?_, ?_⟩
  · simp [canDeleteBook, hasActiveLoan, List.any_eq_true]
  · constructor
    · intro h
      by_cases hact : hasActiveLoan db bid
      · simp [canDeleteBook, hact]
      · exfalso
        by_cases hb : (findDoc db.books bid).isSome <;>
          simp [delete_book, hact, hb] at h
    · intro h
      have hact : hasActiveLoan db bid = true := by
        simpa [canDeleteBook] using h
      simp [delete_book, hact]
  · intro hcan hnd b hb
    have hact : hasActiveLoan db bid = false := by
      simpa [canDeleteBook] using hcan
    have hsome : (findDoc db.books bid).isSome = true := by simp [hb]
    refine ⟨by simp [delete_book, hact, hsome], ?_, ?_, ?_, ?_⟩
    · simp only [delete_book, hact, Bool.false_eq_true, if_false, hsome, if_pos]
      exact findDoc_deleteDoc_self db.books bid hnd
    · intro j hj
      simp only [delete_book, hact, Bool.false_eq_true, if_false, hsome, if_pos]
      exact findDoc_deleteDoc_ne db.books bid j hj
    · simp [delete_book, hact, hsome]
    · simp [delete_book, hact, hsome]
  · intro hcan hnone
    have hact : hasActiveLoan db bid = false := by
      simpa [canDeleteBook] using hcan
    have hdel : deleteDoc db.books bid = db.books := deleteDoc_of_none db.books bid hnone
    simp [delete_book, hact, hnone, hdel]

/-- C6 witness: deleting book 2, which loan 20 holds with returned = false,
fails with 400 and changes nothing; canDeleteBook is false for book 2 and
true for the loan-free book 1, whose delete succeeds and removes it. -/
theorem C6_delete_book_guard_witness :
    delete_book wDBLoan 2 =
      (.error ⟨400, "Cannot delete book with active loans"⟩, wDBLoan) ∧
    canDeleteBook wDBLoan 2 = false ∧
    (delete_book wDBLoan 1).1 = .ok 1 ∧
    findDoc (delete_book wDBLoan 1).2.books 1 = none := by
  have hfalse : canDeleteBook wDBLoan 2 = false :=
    (C6_delete_book_guard wDBLoan 2).1.mpr ⟨(20, wLoanActive), by decide, by decide⟩
  have hdel := (C6_delete_book_guard wDBLoan 1).2.2.1 (by decide) (by decide)
    wBookZero (by rfl)
  exact ⟨(C6_delete_book_guard wDBLoan 2).2.1.mpr hfalse, hfalse, hdel.1, hdel.2.1⟩

/-- Computation of return_book on a stored, not-yet-returned loan: the loan is
marked and restamped, and the book update runs only when the loan carries a
book_id (update_one is a no-op on a dangling reference). -/
theorem return_book_active (db : DB) (now lid : Nat) (loan : Loan)
    (hl : findDoc db.loans lid = some loan) (hret : loan.returned = false) :
    return_book db now lid =
      (.ok (some (lid, { loan with returned := true, updated_at := some now })),
       { db with
           loans := updateDoc db.loans lid
             (fun l => { l with returned := true, updated_at := some now }),
           books := match loan.book_id with
             | none => db.books
             | some bid => updateDoc db.books bid
                 (fun b => { b with
                     available_copies := some (b.available_copies.getD 0 + 1),
                     updated_at := some now }) }) := by
  have hfd : findDoc (updateDoc db.loans lid
      (fun l => { l with returned := true, updated_at := some now })) lid =
      some { loan with returned := true, updated_at := some now } := by
    rw [findDoc_updateDoc_self, hl]
    rfl
  cases hbid : loan.book_id with
  | none => simp [return_book, hl, hret, hbid, hfd]
  | some bid => simp [return_book, hl, hret, hbid, hfd]

/-- C3: Return is idempotent — a loan stored with returned = true is handed
back as-is with the store untouched, and after a first successful Return of an
un-returned loan, a second Return of the same id reproduces the same outcome
and the same store, so available_copies is incremented exactly once in total. -/
theorem C3_return_idempotent (db : DB) (now now2 lid : Nat) (loan : Loan)
    (hl : findDoc db.loans lid = some loan) :
    (loan.returned = true → return_book db now lid = (.ok (some (lid, loan)), db)) ∧
    (loan.returned = false →
      return_book (return_book db now lid).2 now2 lid =
        ((return_book db now lid).1, (return_book db now lid).2)) := by
  constructor
  · intro h
    simp [return_book, hl, h]
  · intro h
    rw [return_book_active db now lid loan hl h]
    have hfd2 : findDoc (updateDoc db.loans lid
        (fun l => { l with returned := true, updated_at := some now })) lid =
        some { loan with returned := true, updated_at := some now } := by
      rw [findDoc_updateDoc_self, hl]
      rfl
    simp [return_book, hfd2]

/-- Computation of return_book when the stored un-returned loan carries a
book_id: both the loan and that book document are rewritten. -/
theorem return_book_active_some (db : DB) (now lid bid : Nat) (loan : Loan)
    (hl : findDoc db.loans lid = some loan) (hret : loan.returned = false)
    (hbid : loan.book_id = some bid) :
    return_book db now lid =
      (.ok (some (lid, { loan with returned := true, updated_at := some now })),
       { db with
           loans := updateDoc db.loans lid
             (fun l => { l with returned := true, updated_at := some now }),
           books := updateDoc db.books bid
             (fun b => { b with
                 available_copies := some (b.available_copies.getD 0 + 1),
                 updated_at := some now }) }) := by
  have hfd : findDoc (updateDoc db.loans lid
      (fun l => { l with returned := true, updated_at := some now })) lid =
      some { loan with returned := true, updated_at := some now } := by
    rw [findDoc_updateDoc_self, hl]
    rfl
  simp [return_book, hl, hret, hbid, hfd]

/-- Computation of return_book when the stored un-returned loan has no
book_id: only the loan is rewritten. -/
theorem return_book_active_none (db : DB) (now lid : Nat) (loan : Loan)
    (hl : findDoc db.loans lid = some loan) (hret : loan.returned = false)
    (hbid : loan.book_id = none) :
    return_book db now lid =
      (.ok (some (lid, { loan with returned := true, updated_at := some now })),
       { db with
           loans := updateDoc db.loans lid
             (fun l => { l with returned := true, updated_at := some now }) }) := by
  have hfd : findDoc (updateDoc db.loans lid
      (fun l => { l with returned := true, updated_at := some now })) lid =
      some { loan with returned := true, updated_at := some now } := by
    rw [findDoc_updateDoc_self, hl]
    rfl
  simp [return_book, hl, hret, hbid, hfd]

/-- C4: Return of an absent loan id is 404 with the store unchanged; the first
Return of a stored un-returned loan marks it returned with a fresh update
stamp, increments the referenced book's available_copies by exactly one with a
fresh stamp, returns the updated loan, and touches no other loan or book. -/
theorem C4_return_first_call (db : DB) (now lid : Nat) :
    (findDoc db.loans lid = none →
      return_book db now lid = (.error ⟨404, "Loan not found"⟩, db)) ∧
    (∀ (loan : Loan) (bid : Nat) (book : Book),
      findDoc db.loans lid = some loan → loan.returned = false →
      loan.book_id = some bid → findDoc db.books bid = some book →
      (return_book db now lid).1 =
        .ok (some (lid, { loan with returned := true, updated_at := some now })) ∧
      findDoc (return_book db now lid).2.loans lid =
        some { loan with returned := true, updated_at := some now } ∧
      findDoc (return_book db now lid).2.books bid =
        some { book with available_copies := some (book.available_copies.getD 0 + 1),
                         updated_at := some now } ∧
      (∀ j, j ≠ bid → findDoc (return_book db now lid).2.books j = findDoc db.books j) ∧
      (∀ k, k ≠ lid → findDoc (return_book db now lid).2.loans k = findDoc db.loans k)) := by
  constructor
  · intro h
    simp [return_book, h]
  · intro loan bid book hl hret hbid hb
    rw [return_book_active_some db now lid bid loan hl hret hbid]
    refine ⟨rfl, ?_, ?_, ?_, ?_⟩
    · show findDoc (updateDoc db.loans lid _) lid = _
      rw [findDoc_updateDoc_self, hl]
      rfl
    · show findDoc (updateDoc db.books bid _) bid = _
      rw [findDoc_updateDoc_self, hb]
      rfl
    · intro j hj
      show findDoc (updateDoc db.books bid _) j = _
      exact findDoc_updateDoc_ne db.books bid j _ hj
    · intro k hk
      show findDoc (updateDoc db.loans lid _) k = _
      exact findDoc_updateDoc_ne db.loans lid k _ hk

/-- C9: Return of a stored un-returned loan succeeds even when the loan has no
book_id or its book_id matches no stored book — the loan is still marked
returned and handed back, and the book collection is left entirely unchanged,
so no available_copies is incremented. -/
theorem C9_return_dangling_book (db : DB) (now lid : Nat) (loan : Loan)
    (hl : findDoc db.loans lid = some loan) (hret : loan.returned = false)
    (hnb : loan.book_id = none ∨
           ∃ bid, loan.book_id = some bid ∧ findDoc db.books bid = none) :
    (return_book db now lid).1 =
      .ok (some (lid, { loan with returned := true, updated_at := some now })) ∧
    (return_book db now lid).2.books = db.books ∧
    findDoc (return_book db now lid).2.loans lid =
      some { loan with returned := true, updated_at := some now } := by
  have hfdl : findDoc (updateDoc db.loans lid
      (fun l => { l with returned := true, updated_at := some now })) lid =
      some { loan with returned := true, updated_at := some now } := by
    rw [findDoc_updateDoc_self, hl]
    rfl
  rcases hnb with hnone | ⟨bid, hbid, hbnone⟩
  · rw [return_book_active_none db now lid loan hl hret hnone]
    exact ⟨rfl, rfl, hfdl⟩
  · rw [return_book_active_some db now lid bid loan hl hret hbid]
    refine ⟨rfl, ?_, hfdl⟩
    show updateDoc db.books bid _ = db.books
    exact updateDoc_of_none db.books bid _ hbnone

def wLoanReturned : Loan :=
  { member_id := 10, book_id := some 2, returned := true, created_at := 40,
    updated_at := some 45 }

def wDBReturned : DB :=
  { books := [(1, wBookZero), (2, wBookOk)], members := [(10, wMember)],
    loans := [(30, wLoanReturned)], nextId := 31 }

def wLoanDangling : Loan :=
  { member_id := 10, book_id := some 77, returned := false, created_at := 60 }

def wDBDangling : DB :=
  { books := [(1, wBookZero), (2, wBookOk)], members := [(10, wMember)],
    loans := [(40, wLoanDangling)], nextId := 41 }

/-- C3 witness: returning the already-returned loan 30 is a pure read, and a
second return of the active loan 20 reproduces the first outcome and store. -/
theorem C3_return_idempotent_witness :
    return_book wDBReturned 200 30 = (.ok (some (30, wLoanReturned)), wDBReturned) ∧
    return_book (return_book wDBLoan 200 20).2 300 20 =
      ((return_book wDBLoan 200 20).1, (return_book wDBLoan 200 20).2) :=
  ⟨(C3_return_idempotent wDBReturned 200 999 30 wLoanReturned (by rfl)).1 (by decide),
   (C3_return_idempotent wDBLoan 200 300 20 wLoanActive (by rfl)).2 (by decide)⟩

/-- C4 witness: returning the absent loan 99 is a 404 no-op, and the first
return of loan 20 marks it and bumps book 2 from two to three copies. -/
theorem C4_return_first_call_witness :
    return_book wDBLoan 200 99 = (.error ⟨404, "Loan not found"⟩, wDBLoan) ∧
    (return_book wDBLoan 200 20).1 =
      .ok (some (20, { wLoanActive with returned := true, updated_at := some 200 })) ∧
    findDoc (return_book wDBLoan 200 20).2.books 2 =
      some { wBookOk with available_copies := some 3, updated_at := some 200 } := by
  have h := (C4_return_first_call wDBLoan 200 20).2 wLoanActive 2 wBookOk
    (by rfl) (by decide) (by rfl) (by rfl)
  exact ⟨(C4_return_first_call wDBLoan 200 99).1 (by rfl), h.1, h.2.2.1⟩

/-- C9 witness: loan 40 references the absent book 77; its return still
succeeds, marks it returned, and leaves the book collection untouched. -/
theorem C9_return_dangling_book_witness :
    (return_book wDBDangling 200 40).1 =
      .ok (some (40, { wLoanDangling with returned := true, updated_at := some 200 })) ∧
    (return_book wDBDangling 200 40).2.books = wDBDangling.books := by
  have h := C9_return_dangling_book wDBDangling 200 40 wLoanDangling (by rfl) (by decide)
    (.inr ⟨77, by rfl, by rfl⟩)
  exact ⟨h.1, h.2.1⟩

/-- Computation of borrow_book when book and member exist and a copy is
available: the loan is appended under the generated id and the book is
decremented and stamped. -/
theorem borrow_book_success (db : DB) (now m bid : Nat) (d : Int) (book : Book)
    (mem : Member) (hb : findDoc db.books bid = some book)
    (havail : 0 < book.available_copies.getD 0)
    (hm : findDoc db.members m = some mem) :
    borrow_book db now m bid d =
      (.ok (db.nextId, findDoc (db.loans ++ [(db.nextId,
          { member_id := m, book_id := some bid,
            due_date := some (now + (max 1 d).toNat), returned := false,
            created_at := now, updated_at := none })]) db.nextId),
       { db with
           books := updateDoc db.books bid
             (fun b => { b with
                 available_copies := some (b.available_copies.getD 0 - 1),
                 updated_at := some now }),
           loans := db.loans ++ [(db.nextId,
             { member_id := m, book_id := some bid,
               due_date := some (now + (max 1 d).toNat), returned := false,
               created_at := now, updated_at := none })],
           nextId := db.nextId + 1 }) := by
  have hnle : ¬ book.available_copies.getD 0 ≤ 0 := by omega
  simp [borrow_book, hb, hnle, hm, create_document_loan]

/-- C2: a successful Borrow appends exactly one new loan under the freshly
generated id, with returned = false and due_date equal to now plus the day
count clamped to at least one; it returns that loan enriched with its id;
it decrements the book's available_copies by exactly one and stamps its
update timestamp, leaving every other book and the member collection alone;
and the day count of a request that omits days is 14. -/
theorem C2_borrow_success (db : DB) (now m bid : Nat) (d : Int) (book : Book)
    (mem : Member) (hb : findDoc db.books bid = some book)
    (havail : 0 < book.available_copies.getD 0)
    (hm : findDoc db.members m = some mem)
    (hfresh : ∀ p ∈ db.loans, p.1 < db.nextId) :
    (borrow_book db now m bid d).1 =
      .ok (db.nextId, some
        { member_id := m, book_id := some bid,
          due_date := some (now + (max 1 d).toNat), returned := false,
          created_at := now, updated_at := none }) ∧
    (borrow_book db now m bid d).2.loans =
      db.loans ++ [(db.nextId,
        { member_id := m, book_id := some bid,
          due_date := some (now + (max 1 d).toNat), returned := false,
          created_at := now, updated_at := none })] ∧
    findDoc (borrow_book db now m bid d).2.books bid =
      some { book with available_copies := some (book.available_copies.getD 0 - 1),
                       updated_at := some now } ∧
    (∀ j, j ≠ bid → findDoc (borrow_book db now m bid d).2.books j = findDoc db.books j) ∧
    (borrow_book db now m bid d).2.members = db.members ∧
    (d ≤ 0 → (max 1 d).toNat = 1) ∧
    BorrowRequest.days_default = 14 := by
  rw [borrow_book_success db now m bid d book mem hb havail hm]
  have hnotin : findDoc db.loans db.nextId = none := by
    apply findDoc_eq_none
    intro p hp
    have := hfresh p hp
    omega
  have happ : findDoc (db.loans ++ [(db.nextId,
      { member_id := m, book_id := some bid,
        due_date := some (now + (max 1 d).toNat), returned := false,
        created_at := now, updated_at := none })]) db.nextId =
      some ({ member_id := m, book_id := some bid,
              due_date := some (now + (max 1 d).toNat), returned := false,
              created_at := now, updated_at := none } : Loan) := by
    rw [findDoc_append_right _ _ _ hnotin, findDoc_cons]
    simp
  refine ⟨by rw [happ], rfl, ?_, ?_, rfl, ?_, rfl⟩
  · show findDoc (updateDoc db.books bid _) bid = _
    rw [findDoc_updateDoc_self, hb]
    rfl
  · intro j hj
    show findDoc (updateDoc db.books bid _) j = _
    exact findDoc_updateDoc_ne db.books bid j _ hj
  · intro hd
    omega

/-- C2 witness: member 10 borrows book 2 from wDB at instant 100 for the
default 14 days — the loan is created under fresh id 11, due at 114, and book
2 drops from two to one available copy with a fresh stamp. -/
theorem C2_borrow_success_witness :
    (borrow_book wDB 100 10 2 14).1 =
      .ok (11, some
        { member_id := 10, book_id := some 2, due_date := some 114,
          returned := false, created_at := 100, updated_at := none }) ∧
    findDoc (borrow_book wDB 100 10 2 14).2.books 2 =
      some { wBookOk with available_copies := some 1, updated_at := some 100 } := by
  have h := C2_borrow_success wDB 100 10 2 14 wBookOk wMember (by rfl) (by decide)
    (by rfl) (by simp [wDB])
  exact ⟨h.1, h.2.2.1⟩

/-- C7: active_loans returns exactly the stored loans with returned = false —
every element of the answer is such a stored loan and every such loan appears
— each enriched with the title/author snapshot of its referenced book and the
name/email snapshot of its referenced member looked up in the current store,
and the answer is sorted by creation time, descending.  The handler takes the
store and returns only a list, so nothing is persisted back. -/
theorem C7_active_loans_query (db : DB) :
    (∀ e ∈ active_loans db, (e.id, e.loan) ∈ db.loans ∧ e.loan.returned = false ∧
      e.book = (e.loan.book_id.bind (findDoc db.books)).map (fun b => (b.title, b.author)) ∧
      e.member = (findDoc db.members e.loan.member_id).map (fun m => (m.name, m.email))) ∧
    (∀ p ∈ db.loans, p.2.returned = false → enrichLoan db p ∈ active_loans db) ∧
    (active_loans db).Pairwise (fun a b => b.loan.created_at ≤ a.loan.created_at) := by
  refine ⟨?_, ?_, ?_⟩
  · intro e he
    simp only [active_loans, List.mem_map] at he
    obtain ⟨p, hp, hep⟩ := he
    simp only [sortByCreatedDesc, List.mem_mergeSort, List.mem_filter] at hp
    subst hep
    exact ⟨hp.1, by simpa using hp.2, rfl, rfl⟩
  · intro p hp hret
    simp only [active_loans, List.mem_map]
    refine ⟨p, ?_, rfl⟩
    simp only [sortByCreatedDesc, List.mem_mergeSort, List.mem_filter]
    exact ⟨hp, by simp [hret]⟩
  · have htrans : ∀ (a b c : Nat × Loan),
        (fun x y : Nat × Loan => decide (y.2.created_at ≤ x.2.created_at)) a b = true →
        (fun x y : Nat × Loan => decide (y.2.created_at ≤ x.2.created_at)) b c = true →
        (fun x y : Nat × Loan => decide (y.2.created_at ≤ x.2.created_at)) a c = true := by
      intro a b c hab hbc
      simp only [decide_eq_true_eq] at hab hbc ⊢
      omega
    have htotal : ∀ (a b : Nat × Loan),
        ((fun x y : Nat × Loan => decide (y.2.created_at ≤ x.2.created_at)) a b ||
         (fun x y : Nat × Loan => decide (y.2.created_at ≤ x.2.created_at)) b a) = true := by
      intro a b
      simp only [Bool.or_eq_true, decide_eq_true_eq]
      omega
    have hs := List.sorted_mergeSort htrans htotal
      (db.loans.filter (fun p => p.2.returned == false))
    have hs2 : (sortByCreatedDesc (db.loans.filter (fun p => p.2.returned == false))).Pairwise
        (fun a b : Nat × Loan => b.2.created_at ≤ a.2.created_at) := by
      refine List.Pairwise.imp ?_ hs
      intro a b h
      simpa using h
    exact List.Pairwise.map (enrichLoan db) (fun a b h => h) hs2

/-- C7 witness: in the store holding active loan 20 and returned loan 30, the
enrichment of loan 20 appears in the answer, and the pair list carries its
book and member snapshots. -/
theorem C7_active_loans_query_witness :
    enrichLoan wDBLoan (20, wLoanActive) ∈ active_loans wDBLoan :=
  (C7_active_loans_query wDBLoan).2.1 (20, wLoanActive) (by decide) rfl

/-! ### Borrow/Return traces (claim C5) -/

/-- The book decrement written by borrow_book's update_one. -/
def borrowDec (now : Nat) (b : Book) : Book :=
  { b with available_copies := some (b.available_copies.getD 0 - 1),
           updated_at := some now }

/-- The loan document borrow_book stores. -/
def borrowLoan (now m bid : Nat) (d : Int) : Loan :=
  { member_id := m, book_id := some bid, due_date := some (now + (max 1 d).toNat),
    returned := false, created_at := now, updated_at := none }

/-- The store after a successful borrow. -/
def borrowPost (db : DB) (now m bid : Nat) (d : Int) : DB :=
  { db with books := updateDoc db.books bid (borrowDec now),
            loans := db.loans ++ [(db.nextId, borrowLoan now m bid d)],
            nextId := db.nextId + 1 }

/-- The loan rewrite of return_book's first update_one. -/
def returnMark (now : Nat) (l : Loan) : Loan :=
  { l with returned := true, updated_at := some now }

/-- The book increment written by return_book's second update_one. -/
def returnInc (now : Nat) (b : Book) : Book :=
  { b with available_copies := some (b.available_copies.getD 0 + 1),
           updated_at := some now }

/-- The store after a first return of a loan whose book_id is present. -/
def returnPost (db : DB) (now lid bid : Nat) : DB :=
  { db with loans := updateDoc db.loans lid (returnMark now),
            books := updateDoc db.books bid (returnInc now) }

theorem borrow_book_success_post (db : DB) (now m bid : Nat) (d : Int) (book : Book)
    (mem : Member) (hb : findDoc db.books bid = some book)
    (havail : 0 < book.available_copies.getD 0)
    (hm : findDoc db.members m = some mem) :
    borrow_book db now m bid d =
      (.ok (db.nextId, findDoc (borrowPost db now m bid d).loans db.nextId),
       borrowPost db now m bid d) := by
  rw [borrow_book_success db now m bid d book mem hb havail hm]
  rfl

theorem return_book_post (db : DB) (now lid bid : Nat) (loan : Loan)
    (hl : findDoc db.loans lid = some loan) (hret : loan.returned = false)
    (hbid : loan.book_id = some bid) :
    return_book db now lid =
      (.ok (some (lid, returnMark now loan)), returnPost db now lid bid) := by
  rw [return_book_active_some db now lid bid loan hl hret hbid]
  rfl

/-- One request of a borrow/return trace, carrying its instant. -/
inductive LibOp where
  | borrowOp (now member_id book_id : Nat) (days : Int)
  | returnOp (now loan_id : Nat)
deriving Repr, DecidableEq

/-- Run a trace in which every call must succeed and every Return must be the
first return of a loan created by an earlier Borrow of the trace: the pending
table records (loan id, book id) for the trace's outstanding loans, a Return
is admitted only against a pending entry, and a handler failure or an
unmatched Return aborts the run.  Yields the final store and the table of
still-outstanding loans. -/
def runMatched : DB → List (Nat × Nat) → List LibOp → Option (DB × List (Nat × Nat))
  | db, pending, [] => some (db, pending)
  | db, pending, LibOp.borrowOp now m bid d :: ops =>
    match borrow_book db now m bid d with
    | (Except.ok r, db1) => runMatched db1 (pending ++ [(r.1, bid)]) ops
    | (Except.error _, _) => none
  | db, pending, LibOp.returnOp now lid :: ops =>
    match pending.find? (fun e => e.1 == lid) with
    | none => none
    | some _ =>
      match return_book db now lid with
      | (Except.ok _, db1) =>
        runMatched db1 (pending.filter (fun e => !(e.1 == lid))) ops
      | (Except.error _, _) => none

/-- Outstanding-loan count of a book in the pending table. -/
def pendingCount (pending : List (Nat × Nat)) (bid : Nat) : Nat :=
  pending.countP (fun e => e.2 == bid)

/-- Invariant tying the pending table to the store: loan keys stay below the
id generator, pending loan ids are distinct, and each pending entry is a
stored un-returned loan whose recorded book exists. -/
def PendingOK (db : DB) (pending : List (Nat × Nat)) : Prop :=
  (∀ p ∈ db.loans, p.1 < db.nextId) ∧
  (pending.map Prod.fst).Nodup ∧
  ∀ e ∈ pending, e.1 < db.nextId ∧
    ∃ l, findDoc db.loans e.1 = some l ∧ l.book_id = some e.2 ∧
         l.returned = false ∧ (findDoc db.books e.2).isSome = true

theorem pendingCount_append_single (pending : List (Nat × Nat)) (n bid j : Nat) :
    pendingCount (pending ++ [(n, bid)]) j =
      pendingCount pending j + (if bid = j then 1 else 0) := by
  by_cases h : bid = j <;> simp [pendingCount, List.countP_append, List.countP_cons, h]

theorem countP_filter_split (p : List (Nat × Nat)) (lid j : Nat) :
    p.countP (fun e => e.2 == j) =
      (p.filter (fun e => !(e.1 == lid))).countP (fun e => e.2 == j) +
      p.countP (fun e => e.1 == lid && e.2 == j) := by
  induction p with
  | nil => rfl
  | cons a as ih =>
    by_cases h : a.1 = lid
    · by_cases h2 : a.2 = j <;>
        simp [List.countP_cons, List.filter_cons, h, h2, ih] <;> omega
    · by_cases h2 : a.2 = j <;>
        simp [List.countP_cons, List.filter_cons, h, h2, ih] <;> omega

theorem countP_lid_of_nodup (p : List (Nat × Nat)) (lid bid0 j : Nat)
    (hnd : (p.map Prod.fst).Nodup)
    (hfind : p.find? (fun e => e.1 == lid) = some (lid, bid0)) :
    p.countP (fun e => e.1 == lid && e.2 == j) = if bid0 = j then 1 else 0 := by
  induction p with
  | nil => simp at hfind
  | cons a as ih =>
    simp only [List.map_cons, List.nodup_cons] at hnd
    by_cases h : a.1 = lid
    · have hpa : (fun e : Nat × Nat => e.1 == lid) a = true := by simp [h]
      rw [@List.find?_cons_of_pos (Nat × Nat) (fun e => e.1 == lid) a as hpa] at hfind
      have ha : a = (lid, bid0) := by
        injection hfind
      have hzero : as.countP (fun e => e.1 == lid && e.2 == j) = 0 := by
        rw [List.countP_eq_zero]
        intro e he
        have : e.1 ≠ lid := by
          intro hel
          apply hnd.1
          rw [h, ← hel]
          exact List.mem_map_of_mem Prod.fst he
        simp [this]
      subst ha
      by_cases h2 : bid0 = j <;> simp [List.countP_cons, hzero, h2]
    · have hpa : ¬ ((fun e : Nat × Nat => e.1 == lid) a = true) := by simp [h]
      rw [@List.find?_cons_of_neg (Nat × Nat) (fun e => e.1 == lid) a as hpa] at hfind
      have := ih hnd.2 hfind
      simp [List.countP_cons, h, this]

theorem pendingCount_remove (pending : List (Nat × Nat)) (lid bid0 j : Nat)
    (hnd : (pending.map Prod.fst).Nodup)
    (hfind : pending.find? (fun e => e.1 == lid) = some (lid, bid0)) :
    pendingCount pending j =
      pendingCount (pending.filter (fun e => !(e.1 == lid))) j +
      (if bid0 = j then 1 else 0) := by
  rw [pendingCount, pendingCount, countP_filter_split pending lid j,
      countP_lid_of_nodup pending lid bid0 j hnd hfind]

theorem availOf_borrowPost (db : DB) (now m bid : Nat) (d : Int) (book : Book)
    (hb : findDoc db.books bid = some book) (j : Nat) :
    availOf (borrowPost db now m bid d) j =
      availOf db j - (if j = bid then 1 else 0) := by
  by_cases hj : j = bid
  · subst hj
    simp only [availOf, borrowPost]
    rw [findDoc_updateDoc_self, hb]
    simp [borrowDec]
  · simp only [availOf, borrowPost]
    rw [findDoc_updateDoc_ne db.books bid j _ hj]
    simp [hj]

theorem availOf_returnPost (db : DB) (now lid bid : Nat) (book : Book)
    (hb : findDoc db.books bid = some book) (j : Nat) :
    availOf (returnPost db now lid bid) j =
      availOf db j + (if j = bid then 1 else 0) := by
  by_cases hj : j = bid
  · subst hj
    simp only [availOf, returnPost]
    rw [findDoc_updateDoc_self, hb]
    simp [returnInc]
  · simp only [availOf, returnPost]
    rw [findDoc_updateDoc_ne db.books bid j _ hj]
    simp [hj]

theorem PendingOK_borrow (db : DB) (pending : List (Nat × Nat)) (now m bid : Nat)
    (d : Int) (book : Book) (hb : findDoc db.books bid = some book)
    (hinv : PendingOK db pending) :
    PendingOK (borrowPost db now m bid d) (pending ++ [(db.nextId, bid)]) := by
  obtain ⟨hkeys, hnd, hent⟩ := hinv
  refine ⟨?_, ?_, ?_⟩
  · intro p hp
    show p.1 < db.nextId + 1
    have hp2 : p ∈ db.loans ++ [(db.nextId, borrowLoan now m bid d)] := hp
    rw [List.mem_append] at hp2
    rcases hp2 with hp2 | hp2
    · have := hkeys p hp2
      omega
    · have : p = (db.nextId, borrowLoan now m bid d) := by simpa using hp2
      rw [this]
      omega
  · have hlt : ∀ x ∈ pending.map Prod.fst, x ≠ db.nextId := by
      intro x hx
      obtain ⟨e, he, hex⟩ := List.mem_map.mp hx
      have := (hent e he).1
      omega
    rw [List.map_append, List.nodup_append]
    refine ⟨hnd, List.nodup_singleton _, ?_⟩
    intro x hx hx2
    have : x = db.nextId := by simpa using hx2
    exact hlt x hx this
  · intro e he
    rw [List.mem_append] at he
    rcases he with he | he
    · obtain ⟨helt, l, hfl, hlb, hlr, hbe⟩ := hent e he
      refine ⟨by show e.1 < db.nextId + 1; omega, l, ?_, hlb, hlr, ?_⟩
      · show findDoc (db.loans ++ [(db.nextId, borrowLoan now m bid d)]) e.1 = some l
        rw [findDoc_append_ne _ _ _ _ (by omega)]
        exact hfl
      · show (findDoc (updateDoc db.books bid (borrowDec now)) e.2).isSome = true
        by_cases hj : e.2 = bid
        · rw [hj, findDoc_updateDoc_self, hb]
          rfl
        · rw [findDoc_updateDoc_ne _ _ _ _ hj]
          exact hbe
    · have he2 : e = (db.nextId, bid) := by simpa using he
      subst he2
      refine ⟨by show db.nextId < db.nextId + 1; omega,
              borrowLoan now m bid d, ?_, rfl, rfl, ?_⟩
      · show findDoc (db.loans ++ [(db.nextId, borrowLoan now m bid d)]) db.nextId = _
        rw [findDoc_append_right]
        · rw [findDoc_cons]
          simp
        · apply findDoc_eq_none
          intro p hp
          have := hkeys p hp
          omega
      · show (findDoc (updateDoc db.books bid (borrowDec now)) bid).isSome = true
        rw [findDoc_updateDoc_self, hb]
        rfl

theorem PendingOK_return (db : DB) (pending : List (Nat × Nat)) (now lid bid0 : Nat)
    (hinv : PendingOK db pending) (hmem : (lid, bid0) ∈ pending) :
    PendingOK (returnPost db now lid bid0)
      (pending.filter (fun e => !(e.1 == lid))) := by
  obtain ⟨hkeys, hnd, hent⟩ := hinv
  refine ⟨?_, ?_, ?_⟩
  · intro p hp
    show p.1 < db.nextId
    have h1 : p.1 ∈ (updateDoc db.loans lid (returnMark now)).map Prod.fst :=
      List.mem_map_of_mem _ hp
    rw [updateDoc_keys] at h1
    obtain ⟨q, hq, hq1⟩ := List.mem_map.mp h1
    rw [← hq1]
    exact hkeys q hq
  · have hsub : List.Sublist
        ((pending.filter (fun e => !(e.1 == lid))).map Prod.fst)
        (pending.map Prod.fst) := (List.filter_sublist _).map _
    exact hnd.sublist hsub
  · intro e he
    rw [List.mem_filter] at he
    obtain ⟨hep, hne⟩ := he
    have hneq : e.1 ≠ lid := by simpa using hne
    obtain ⟨helt, l, hfl, hlb, hlr, hbe⟩ := hent e hep
    refine ⟨helt, l, ?_, hlb, hlr, ?_⟩
    · show findDoc (updateDoc db.loans lid (returnMark now)) e.1 = some l
      rw [findDoc_updateDoc_ne _ _ _ _ hneq]
      exact hfl
    · show (findDoc (updateDoc db.books bid0 (returnInc now)) e.2).isSome = true
      by_cases hj : e.2 = bid0
      · rw [hj, findDoc_updateDoc_self]
        rw [hj] at hbe
        simpa using hbe
      · rw [findDoc_updateDoc_ne _ _ _ _ hj]
        exact hbe

theorem runMatched_invariant (ops : List LibOp) :
    ∀ (db : DB) (pending : List (Nat × Nat)) (out : DB × List (Nat × Nat)),
      PendingOK db pending →
      runMatched db pending ops = some out →
      PendingOK out.1 out.2 ∧
      ∀ j, availOf out.1 j + (pendingCount out.2 j : Int) =
           availOf db j + (pendingCount pending j : Int) := by
  induction ops with
  | nil =>
    intro db pending out hinv hrun
    simp only [runMatched, Option.some.injEq] at hrun
    subst hrun
    exact ⟨hinv, fun j => rfl⟩
  | cons op ops ih =>
    intro db pending out hinv hrun
    cases op with
    | borrowOp now m bid d =>
      cases hbk : findDoc db.books bid with
      | none =>
        have hbb : borrow_book db now m bid d = (.error ⟨404, "Book not found"⟩, db) := by
          simp [borrow_book, hbk]
        simp only [runMatched, hbb] at hrun
        exact absurd hrun (by simp)
      | some book =>
        by_cases hle : book.available_copies.getD 0 ≤ 0
        · have hbb : borrow_book db now m bid d =
              (.error ⟨400, "No copies available"⟩, db) := by
            simp [borrow_book, hbk, hle]
          simp only [runMatched, hbb] at hrun
          exact absurd hrun (by simp)
        · cases hmm : findDoc db.members m with
          | none =>
            have hbb : borrow_book db now m bid d =
                (.error ⟨404, "Member not found"⟩, db) := by
              simp [borrow_book, hbk, hle, hmm]
            simp only [runMatched, hbb] at hrun
            exact absurd hrun (by simp)
          | some mem =>
            have hbb := borrow_book_success_post db now m bid d book mem hbk
              (by omega) hmm
            simp only [runMatched, hbb] at hrun
            have hinv1 := PendingOK_borrow db pending now m bid d book hbk hinv
            obtain ⟨hout, hacc⟩ := ih (borrowPost db now m bid d)
              (pending ++ [(db.nextId, bid)]) out hinv1 hrun
            refine ⟨hout, fun j => ?_⟩
            have h1 := hacc j
            rw [availOf_borrowPost db now m bid d book hbk j,
                pendingCount_append_single] at h1
            by_cases hj : j = bid
            · rw [if_pos hj, if_pos (hj.symm)] at h1
              push_cast at h1 ⊢
              omega
            · rw [if_neg hj, if_neg (fun hh => hj hh.symm)] at h1
              push_cast at h1 ⊢
              omega
    | returnOp now lid =>
      cases hfind : pending.find? (fun e => e.1 == lid) with
      | none =>
        simp only [runMatched, hfind] at hrun
        exact absurd hrun (by simp)
      | some e0 =>
        have he0p := List.find?_some hfind
        have he0lid : e0.1 = lid := by simpa using he0p
        have he0mem : e0 ∈ pending := List.mem_of_find?_eq_some hfind
        obtain ⟨helt, l, hfl, hlb, hlr, hbe⟩ := hinv.2.2 e0 he0mem
        obtain ⟨book, hbook⟩ := Option.isSome_iff_exists.mp hbe
        rw [he0lid] at hfl
        have hretb := return_book_post db now lid e0.2 l hfl hlr hlb
        simp only [runMatched, hfind, hretb] at hrun
        have he0eq : e0 = (lid, e0.2) := by rw [← he0lid]
        have hinv1 := PendingOK_return db pending now lid e0.2 hinv (he0eq ▸ he0mem)
        obtain ⟨hout, hacc⟩ := ih (returnPost db now lid e0.2)
          (pending.filter (fun e => !(e.1 == lid))) out hinv1 hrun
        refine ⟨hout, fun j => ?_⟩
        have h1 := hacc j
        rw [availOf_returnPost db now lid e0.2 book hbook j] at h1
        have hfind2 : pending.find? (fun e => e.1 == lid) = some (lid, e0.2) := by
          rw [hfind, ← he0eq]
        have hcnt := pendingCount_remove pending lid e0.2 j hinv.2.1 hfind2
        rw [hcnt]
        by_cases hj : j = e0.2
        · rw [if_pos hj] at h1
          rw [if_pos (hj.symm)]
          push_cast at h1 ⊢
          omega
        · rw [if_neg hj] at h1
          rw [if_neg (fun hh => hj hh.symm)]
          push_cast at h1 ⊢
          omega

/-- C5: round-trip — run any trace of Borrow and Return requests in which
every call succeeds and every Return is the first return of a loan created by
an earlier Borrow of the trace (runMatched enforces exactly this); if at the
end no trace-created loan is left outstanding, every book's available_copies
equals its value before the trace. -/
theorem C5_borrow_return_round_trip (db : DB) (ops : List LibOp)
    (out : DB × List (Nat × Nat))
    (hwf : ∀ p ∈ db.loans, p.1 < db.nextId)
    (hrun : runMatched db [] ops = some out)
    (hdone : out.2 = []) :
    ∀ bid, availOf out.1 bid = availOf db bid := by
  have h := runMatched_invariant ops db [] out ⟨hwf, by simp, by simp⟩ hrun
  intro bid
  have h2 := h.2 bid
  rw [hdone] at h2
  simpa [pendingCount] using h2

def wOps : List LibOp := [LibOp.borrowOp 100 10 2 14, LibOp.returnOp 200 11]

/-- The store after running wOps on wDB: loan 11 is closed and book 2 is back
to two available copies, restamped. -/
def wDBRound : DB :=
  { books := [(1, wBookZero),
              (2, { wBookOk with available_copies := some 2, updated_at := some 200 })],
    members := [(10, wMember)],
    loans := [(11, { member_id := 10, book_id := some 2, due_date := some 114,
                     returned := true, created_at := 100, updated_at := some 200 })],
    nextId := 12 }

/-- C5 witness: the two-step trace borrow-then-return on wDB succeeds, ends
with no outstanding loan, and leaves book 2 at its original availability. -/
theorem C5_borrow_return_round_trip_witness :
    runMatched wDB [] wOps = some (wDBRound, []) ∧
    availOf wDBRound 2 = availOf wDB 2 :=
  ⟨by decide,
   C5_borrow_return_round_trip wDB wOps (wDBRound, []) (by simp [wDB])
     (by decide) rfl 2⟩
